import Mathlib

/-!
# Verification of the VapourSynth core audio filters

A shallow embedding of `src/core/audiofilters.cpp` (AudioTrim, AudioSplice,
AudioMix, ShuffleChannels, SplitChannels, AssumeSampleRate, BlankAudio,
TestAudio) together with proofs about the per-frame sample data each filter
produces and about the construction-time validation each filter performs.

Conventions of the embedding:
* a logical audio stream is its total sample count plus a total function
  from (channel, sample index) to the stored sample value (`AudioStream`);
* an audio frame is its valid length plus the channel buffers, modelled as a
  total function so that allocator padding past the valid length is
  representable (`AFrame`);
* machine integers become `Nat`/`Int`; sample values are `Int`;
* the frame count of a node, recomputed by the core's `createAudioFilter`
  from the sample count, is the ceiling division stated in the design
  (`numFrames`).
-/

namespace VSAudio

/-- A logical audio stream: its total sample count and, for every channel and
absolute sample index, the stored sample value. -/
structure AudioStream where
  numSamples : Nat
  sample : Nat → Nat → Int

/-- An audio frame as observed through the frame API: the valid length
(`getFrameLength`) and the per-channel buffers (`getReadPtr`); positions at or
beyond `length` are allocator padding and never meaningful. -/
structure AFrame where
  length : Nat
  data : Nat → Nat → Int

/-- Frame count of a stream of `total` samples at `spf` samples per frame:
the ceiling division recomputed by the core (`createAudioFilter`) and stated
in the design; `audioSplice2Create` computes the same expression inline. -/
def numFrames (spf total : Nat) : Nat := (total + spf - 1) / spf

/-- Length of frame `n` of a stream of `total` samples: `samplesPerFrame`
except for the final partial frame. -/
def frameLength (spf total n : Nat) : Nat := min spf (total - n * spf)

/-- Frame `m` of a source stream, as handed out by the frame provider:
channel `c` of the buffer holds the stream's samples from `m * spf` on. -/
def sourceFrame (spf : Nat) (s : AudioStream) (m : Nat) : AFrame :=
  ⟨frameLength spf s.numSamples m, fun c i => s.sample c (m * spf + i)⟩

/-! ## TestAudio (`testAudioGetframe`, lines 806-822)

The generator fills every channel of frame `n` with
`w[i] = (startSample + i) % 0xFFFF` where `startSample = n * samplesPerFrame`;
note that `0xFFFF` is 65535, not 65536. -/

/-- Output frame `n` of the TestAudio generator (`testAudioGetframe`). -/
def testAudioFrame (spf total : Nat) (n : Nat) : AFrame :=
  let samples := min spf (total - n * spf)
  let startSample := n * spf
  ⟨samples, fun _ i => ((startSample + i) % 65535 : Nat)⟩

/-! ## AssumeSampleRate (`assumeSampleRateCreate`, lines 684-718)

The constructor copies the clip's audio info, assigns the `samplerate`
argument (zero when absent), and - when the reference clip `src` is given -
assigns `vsapi->getAudioInfo(d->node)->sampleRate`, i.e. the *input clip's
own* sample rate; the audio info of `src` is never read (only its video info
is fetched, into an unused local). -/

/-- Audio info as far as AssumeSampleRate observes it: sample rate plus the
untouched remainder of the descriptor (sample count and a tag standing for
the format pointer). -/
structure AInfo where
  sampleRate : Int
  numSamples : Int
  formatTag : Nat
deriving DecidableEq

/-- `assumeSampleRateCreate`: `clip` is the input clip's info, `samplerate`
the optional explicit rate, `src` the optional reference clip's info. -/
def assumeSampleRateCreate (clip : AInfo) (samplerate : Option Int)
    (src : Option AInfo) : Except String AInfo :=
  let ai0 : AInfo := { clip with sampleRate := samplerate.getD 0 }
  let ai : AInfo :=
    if src.isSome then { ai0 with sampleRate := clip.sampleRate } else ai0
  if samplerate.isSome = src.isSome then
    Except.error "AssumeSampleRate: need to specify source clip or samplerate"
  else if ai.sampleRate < 1 then
    Except.error "AssumeSampleRate: invalid samplerate specified"
  else
    Except.ok ai

/-- `assumeSampleRateGetframe` (lines 672-682): per-frame passthrough of the
source frame. -/
def assumeSampleRateGetframe (srcFrame : AFrame) : AFrame := srcFrame

/-! ## AudioTrim construction (`audioTrimCreate`, lines 104-157) -/

/-- Result of `audioTrimCreate`: an error, the input clip passed through
unchanged (the nop optimization), or a trim node retaining the computed
`first` offset and trimmed sample count. -/
inductive TrimResult where
  | error (msg : String)
  | passthrough
  | node (first : Int) (numSamples : Int)
deriving DecidableEq

/-- Whether a `TrimResult` is the error outcome (no node constructed, no
passthrough). -/
def TrimResult.isErr : TrimResult → Bool
  | .error _ => true
  | _ => false

/-- `audioTrimCreate`: validation and trim-length computation. `none` stands
for an absent optional argument (`propGetInt` then reports an error and
yields 0). `N` is the source clip's sample count. Modelled from the spec:
`int64ToIntS` (VSHelper.h, outside `src/`) is the identity on the
spec's integer-argument abstraction, which never mentions a narrowing. -/
def audioTrimCreate (firstOpt lastOpt lengthOpt : Option Int) (N : Int) :
    TrimResult :=
  let first := firstOpt.getD 0
  let last := lastOpt.getD 0
  let length := lengthOpt.getD 0
  if lastOpt.isSome ∧ lengthOpt.isSome then
    .error "AudioTrim: both last sample and length specified"
  else if lastOpt.isSome ∧ last < first then
    .error "AudioTrim: invalid last sample specified (last is less than first)"
  else if lengthOpt.isSome ∧ length < 1 then
    .error "AudioTrim: invalid length specified (less than 1)"
  else if first < 0 then
    .error "Trim: invalid first frame specified (less than 0)"
  else if (lastOpt.isSome ∧ last ≥ N) ∨ (lengthOpt.isSome ∧ first + length > N)
      ∨ N ≤ first then
    .error "AudioTrim: last sample beyond clip end"
  else
    let trimlen :=
      if lastOpt.isSome then last - first + 1
      else if lengthOpt.isSome then length
      else N - first
    if (firstOpt.isNone ∧ lastOpt.isNone ∧ lengthOpt.isNone)
        ∨ (trimlen ≠ 0 ∧ trimlen = N) then
      .passthrough
    else
      .node first trimlen

/-! ## AudioTrim per-frame computation (`audioTrimGetframe`, lines 57-102)

Output frame `n` starts at absolute source sample
`startSample = n * samplesPerFrame + first`.  If that offset is frame-aligned
and `n` is not the final output frame, the aligned source frame is passed
through (or copied when its length differs); otherwise the tail of source
frame `startFrame` and, when needed, the head of frame `startFrame + 1` are
stitched into a fresh frame. -/

/-- Samples of output frame `n` of AudioTrim (`audioTrimGetframe`). `trimlen`
is the trimmed stream's sample count (`d->ai.numSamples`). -/
def audioTrimFrame (spf first trimlen : Nat) (src : AudioStream) (n : Nat) :
    AFrame :=
  let startSample := n * spf + first
  let startFrame := startSample / spf
  let length := min (trimlen - n * spf) spf
  if startSample % spf = 0 ∧ n ≠ numFrames spf trimlen - 1 then
    let srcF := sourceFrame spf src startFrame
    if length = srcF.length then srcF
    else ⟨length, fun c i => srcF.data c i⟩
  else
    let numSrc1Samples := spf - startSample % spf
    let src1 := sourceFrame spf src startFrame
    let src2 := sourceFrame spf src (startFrame + 1)
    ⟨length, fun c i =>
      if i < numSrc1Samples then src1.data c (spf - numSrc1Samples + i)
      else src2.data c (i - numSrc1Samples)⟩

/-- Source frame indices requested by `audioTrimGetframe` in the `arInitial`
phase for output frame `n`. -/
def audioTrimRequests (spf first trimlen : Nat) (n : Nat) : List Nat :=
  let startSample := n * spf + first
  let startFrame := startSample / spf
  let length := min (trimlen - n * spf) spf
  if startSample % spf = 0 ∧ n ≠ numFrames spf trimlen - 1 then
    [startFrame]
  else
    let numSrc1Samples := spf - startSample % spf
    if numSrc1Samples < length then [startFrame, startFrame + 1]
    else [startFrame]

/-- Sample `k` (channel `c`) of the trimmed stream: position `k % spf` of
output frame `k / spf`. -/
def trimSample (spf first trimlen : Nat) (src : AudioStream) (c k : Nat) :
    Int :=
  (audioTrimFrame spf first trimlen src (k / spf)).data c (k % spf)

/-! ## AudioSplice (`audioSplice2Create`, lines 265-296, and the two
getframe callbacks, lines 171-256) -/

/-- Descriptor produced by `audioSplice2Create`: summed sample count,
recomputed frame count, and which getframe callback was installed
(passthrough when `numSamples1 % samplesPerFrame == 0`). -/
structure SpliceInfo where
  numSamples : Nat
  numFramesOut : Nat
  passthroughDispatch : Bool
deriving DecidableEq

/-- `audioSplice2Create` (validation for format mismatch and overflow aside,
which the claim's identical-format streams never trigger). -/
def audioSplice2Create (spf : Nat) (A B : AudioStream) : SpliceInfo :=
  let total := A.numSamples + B.numSamples
  { numSamples := total
    numFramesOut := (total + spf - 1) / spf
    passthroughDispatch := A.numSamples % spf == 0 }

/-- `audioSplice2PassthroughGetframe` (lines 171-186): every output frame is
a source frame of one of the two clips, offset by `numFrames1` for the
second. -/
def audioSplice2PassthroughFrame (spf : Nat) (A B : AudioStream) (n : Nat) :
    AFrame :=
  let numFrames1 := numFrames spf A.numSamples
  if n < numFrames1 then sourceFrame spf A n
  else sourceFrame spf B (n - numFrames1)

/-- `audioSplice2Getframe` (lines 188-256): frames before the seam pass
through clip 1; the seam frame `numFrames1 - 1` stitches the end of clip 1
to the start of clip 2; later frames stitch two consecutive clip-2 frames at
the running misalignment `f1offset`. -/
def audioSplice2Frame (spf : Nat) (A B : AudioStream) (n : Nat) : AFrame :=
  let numFrames1 := numFrames spf A.numSamples
  let totalSamples := A.numSamples + B.numSamples
  if n < numFrames1 - 1 then sourceFrame spf A n
  else
    let samplesOut := min spf (totalSamples - n * spf)
    if n = numFrames1 - 1 then
      let f1 := sourceFrame spf A n
      let f2 := sourceFrame spf B 0
      let f1copy := min samplesOut f1.length
      ⟨samplesOut, fun c i =>
        if i < f1copy then f1.data c i else f2.data c (i - f1copy)⟩
    else
      let f1 := sourceFrame spf B (n - numFrames1)
      let f2 := sourceFrame spf B (n - numFrames1 + 1)
      let f1offset := spf - (A.numSamples - 1) % spf - 1
      let f1copy := min samplesOut (f1.length - f1offset)
      ⟨samplesOut, fun c i =>
        if i < f1copy then f1.data c (f1offset + i)
        else f2.data c (i - f1copy)⟩

/-- Output frame `n` of `Splice(A, B)` through the dispatch chosen by
`audioSplice2Create`. -/
def audioSpliceFrame (spf : Nat) (A B : AudioStream) (n : Nat) : AFrame :=
  if (audioSplice2Create spf A B).passthroughDispatch then
    audioSplice2PassthroughFrame spf A B n
  else audioSplice2Frame spf A B n

/-- Sample `k` (channel `c`) of the spliced stream. -/
def spliceSample (spf : Nat) (A B : AudioStream) (c k : Nat) : Int :=
  (audioSpliceFrame spf A B (k / spf)).data c (k % spf)

/-- The sample sequence the splice is claimed to produce: `A`'s samples
followed by `B`'s. -/
def concatSample (A B : AudioStream) (c k : Nat) : Int :=
  if k < A.numSamples then A.sample c k else B.sample c (k - A.numSamples)

/-! ## ShuffleChannels (`shuffleChannelsCreate`, lines 546-614, and
`shuffleChannelsGetFrame`, lines 510-537) -/

/-- One destination channel's selection: the source stream it reads and the
physical source-channel index computed at construction. -/
structure ShuffleSource where
  stream : AudioStream
  idx : Nat

/-- Output sample count computed by `shuffleChannelsCreate`: starting from
source 0's count, the loop folds `max` over every source (source 0
included). -/
def shuffleNumSamples : List ShuffleSource → Nat
  | [] => 0
  | s :: rest =>
      (s :: rest).foldl (fun acc t => max acc t.stream.numSamples)
        s.stream.numSamples

/-- Output frame `n` of ShuffleChannels (`shuffleChannelsGetFrame`):
destination channel `c` copies `copyLength = min dstLength srcLength`
samples from physical channel `idx` of its source's frame `n` (`srcLength`
is 0 when `n` is past that source's frame count) and zero-fills the rest. -/
def shuffleChannelsFrame (spf : Nat) (srcs : List ShuffleSource) (n : Nat) :
    AFrame :=
  let total := shuffleNumSamples srcs
  let dstLength := min (total - n * spf) spf
  ⟨dstLength, fun c i =>
    match srcs[c]? with
    | none => 0
    | some s =>
        let srcF := sourceFrame spf s.stream n
        let srcLength :=
          if n < numFrames spf s.stream.numSamples then srcF.length else 0
        let copyLength := min dstLength srcLength
        if i < copyLength then srcF.data s.idx i else 0⟩

/-- `std::bitset<64>(x).count()`: population count of the low 64 bits. -/
def popcount64 (x : Nat) : Nat :=
  (List.range 64).foldl (fun acc b => acc + if x.testBit b then 1 else 0) 0

/-- The channel-to-node binding built by `shuffleChannelsCreate` after its
two validation checks: selection `i` reads the node at index
`min (numSrcNodes - 1) i`. -/
def shuffleChannelsCreateBindings (numSrcNodes numSrcChannels : Nat)
    (channels_out : Nat) : Except String (List Nat) :=
  if numSrcNodes > numSrcChannels then
    .error "ShuffleChannels: cannot have more input nodes than selected input channels"
  else if popcount64 channels_out ≠ numSrcChannels then
    .error "ShuffleChannels: number of input channels doesn't match number of outputs"
  else
    .ok ((List.range numSrcChannels).map (fun i => min (numSrcNodes - 1) i))

/-! ## SplitChannels (`splitChannelsCreate`, lines 649-663, and
`splitChannelsGetFrame`, lines 625-641) -/

/-- Audio sample representation kind. -/
inductive SampleType where
  | integer
  | float
deriving DecidableEq

/-- Audio format descriptor as the filters observe it. -/
structure AudioFormat where
  sampleType : SampleType
  bitsPerSample : Nat
  channelLayout : Nat
  numChannels : Nat
deriving DecidableEq

/-- The FrontLeft channel-identity bit position. Modelled from the spec:
the `VSAudioChannels` enumeration lives in the public header, outside
`src/`; `vsacFrontLeft` is its first member, bit position 0. -/
def vsacFrontLeft : Nat := 0

/-- Modelled from the spec: `queryAudioFormat` (external interface, spec
section 6) validates the combination and constructs a format descriptor
whose channel count is the population count of the layout bitmask (spec
section 3); its implementation lives in the core, outside `src/`. -/
def queryAudioFormat (st : SampleType) (bits : Nat) (channelLayout : Nat) :
    Option AudioFormat :=
  if channelLayout = 0 then none
  else some ⟨st, bits, channelLayout, popcount64 channelLayout⟩

/-- Audio info: format descriptor plus stream metadata. -/
structure AudioInfoFull where
  format : AudioFormat
  sampleRate : Int
  numSamples : Nat

/-- The per-output audio infos built by `splitChannelsCreate`: every one of
the `numChannels` outputs gets the format queried for the single-channel
`1 << vsacFrontLeft` layout, whatever source channel it will copy. -/
def splitChannelsCreate (ai : AudioInfoFull) : List AudioInfoFull :=
  (List.range ai.format.numChannels).map (fun _ =>
    { ai with
        format := (queryAudioFormat ai.format.sampleType
          ai.format.bitsPerSample (1 <<< vsacFrontLeft)).getD ai.format })

/-- Output frame `n` of SplitChannels output `outIdx`
(`splitChannelsGetFrame`): channel `outIdx` of the source frame copied
verbatim into the single-channel destination. -/
def splitChannelsGetFrame (spf : Nat) (src : AudioStream) (outIdx n : Nat) :
    AFrame :=
  let srcF := sourceFrame spf src n
  ⟨srcF.length, fun _ i => srcF.data outIdx i⟩

/-! ## BlankAudio (`blankAudioGetframe`, lines 729-751)

Node-local mutable state (`d->f`) modelled by explicit state passing; frame
allocation is modelled by an allocation counter so that distinctness of
allocated frames is expressible. -/

/-- A frame produced by BlankAudio: allocation identity, valid length, and
the channel buffers. -/
structure BlankFrame where
  fid : Nat
  length : Nat
  value : Nat → Nat → Int

/-- The all-zero frame `blankAudioGetframe` allocates for request `n`, with
allocation id `fid`. -/
def mkBlankFrame (fid spf total n : Nat) : BlankFrame :=
  ⟨fid, min spf (total - n * spf), fun _ _ => 0⟩

/-- Node-local state of BlankAudio: next allocation id and the memoized
frame `d->f` (initially null). -/
structure BlankState where
  nextId : Nat
  memo : Option BlankFrame

/-- Freshly constructed BlankAudio node: no frame memoized yet. -/
def blankInit : BlankState := ⟨0, none⟩

/-- One invocation of `blankAudioGetframe` for frame index `n`.  A fresh
zero frame is allocated only when `d->f` is null; with `keep` set the
allocated frame is stored in `d->f` and a new reference to `d->f` is
returned; without `keep` the fresh frame itself is returned (`d->f` stays
null, so the `some`-memo/`keep=false` combination never arises in a run and
yields the callback's fallthrough null). -/
def blankAudioGetframe (keep : Bool) (spf total : Nat) (st : BlankState)
    (n : Nat) : Option BlankFrame × BlankState :=
  match st.memo with
  | none =>
      let frame := mkBlankFrame st.nextId spf total n
      if keep then (some frame, ⟨st.nextId + 1, some frame⟩)
      else (some frame, ⟨st.nextId + 1, none⟩)
  | some f =>
      if keep then (some f, st)
      else (none, st)

/-- Sequential run of `blankAudioGetframe` over a list of requested frame
indices, threading the node-local state. -/
def blankAudioRun (keep : Bool) (spf total : Nat) :
    List Nat → BlankState → List (Option BlankFrame) × BlankState
  | [], st => ([], st)
  | n :: rest, st =>
      let r := blankAudioGetframe keep spf total st n
      let rest' := blankAudioRun keep spf total rest r.2
      (r.1 :: rest'.1, rest'.2)

/-! ## Concrete streams used by the witnesses -/

/-- A concrete 7000-sample stream with distinguishable samples. -/
def exStream7000 : AudioStream := ⟨7000, fun c i => (c : Int) + 3 * i⟩

/-- A concrete 4-sample stream. -/
def exStreamA : AudioStream := ⟨4, fun c i => (c : Int) + 2 * i⟩

/-- A concrete 5-sample stream. -/
def exStreamB : AudioStream := ⟨5, fun c i => 100 + (c : Int) + 3 * i⟩

/-! ## Helper lemmas -/

@[simp] theorem sourceFrame_length (spf : Nat) (s : AudioStream) (m : Nat) :
    (sourceFrame spf s m).length = frameLength spf s.numSamples m := rfl

@[simp] theorem sourceFrame_data (spf : Nat) (s : AudioStream) (m c i : Nat) :
    (sourceFrame spf s m).data c i = s.sample c (m * spf + i) := rfl

/-- `n < numFrames spf total` forces `n * spf < total` (so the frame is
nonempty). -/
theorem mul_lt_total_of_lt_numFrames {spf total n : Nat} (hspf : 0 < spf)
    (hn : n < numFrames spf total) : n * spf < total := by
  have h1 : n + 1 ≤ (total + spf - 1) / spf := hn
  have h2 : (n + 1) * spf ≤ total + spf - 1 :=
    (Nat.le_div_iff_mul_le hspf).mp h1
  have h3 : (n + 1) * spf = n * spf + spf := Nat.succ_mul n spf
  omega

/-- Frame count of a stream whose length is a multiple of `spf`. -/
theorem numFrames_of_mod_eq_zero {spf a : Nat} (hspf : 0 < spf)
    (h : a % spf = 0) : numFrames spf a = a / spf := by
  have hdm : spf * (a / spf) + a % spf = a := Nat.div_add_mod a spf
  unfold numFrames
  have h1 : a + spf - 1 = spf * (a / spf) + (spf - 1) := by omega
  rw [h1, Nat.mul_add_div hspf]
  have h2 : (spf - 1) / spf = 0 := Nat.div_eq_of_lt (by omega)
  omega

/-- Frame count of a stream whose length is not a multiple of `spf`. -/
theorem numFrames_of_mod_ne_zero {spf a : Nat} (hspf : 0 < spf)
    (h : a % spf ≠ 0) : numFrames spf a = a / spf + 1 := by
  have hdm : spf * (a / spf) + a % spf = a := Nat.div_add_mod a spf
  have hrlt : a % spf < spf := Nat.mod_lt _ hspf
  unfold numFrames
  have h1 : a + spf - 1 = spf * (a / spf + 1) + (a % spf - 1) := by
    have hb : spf * (a / spf + 1) = spf * (a / spf) + spf := by ring
    omega
  rw [h1, Nat.mul_add_div hspf]
  have h2 : (a % spf - 1) / spf = 0 := Nat.div_eq_of_lt (by omega)
  omega

/-- The splice passthrough dispatch (taken when clip 1's length is
frame-aligned) has the claimed frame lengths and concatenated sample
content. -/
theorem audioSplice2PassthroughFrame_spec (spf : Nat) (hspf : 0 < spf)
    (A B : AudioStream) (hdvd : A.numSamples % spf = 0)
    (n : Nat) (hn : n * spf < A.numSamples + B.numSamples) (c j : Nat) :
    (audioSplice2PassthroughFrame spf A B n).length
        = min spf (A.numSamples + B.numSamples - n * spf) ∧
    (j < (audioSplice2PassthroughFrame spf A B n).length →
      (audioSplice2PassthroughFrame spf A B n).data c j
        = concatSample A B c (n * spf + j)) := by
  set a := A.numSamples with ha
  set b := B.numSamples with hb
  have hnf1 : numFrames spf a = a / spf := numFrames_of_mod_eq_zero hspf hdvd
  have hda : a / spf * spf = a := Nat.div_mul_cancel (Nat.dvd_of_mod_eq_zero hdvd)
  simp only [audioSplice2PassthroughFrame, hnf1]
  by_cases hc : n < a / spf
  · rw [if_pos hc]
    have hle : (n + 1) * spf ≤ a / spf * spf := Nat.mul_le_mul_right _ hc
    have hsucc : (n + 1) * spf = n * spf + spf := Nat.succ_mul _ _
    constructor
    · simp only [sourceFrame_length, frameLength, ← ha]
      omega
    · intro hj
      simp only [sourceFrame_length, frameLength, ← ha] at hj
      have hlt : n * spf + j < a := by omega
      simp only [sourceFrame_data, concatSample, ← ha, if_pos hlt]
  · rw [if_neg hc]
    have hge : a / spf ≤ n := Nat.le_of_not_lt hc
    have hsm : (n - a / spf) * spf = n * spf - a / spf * spf :=
      Nat.sub_mul _ _ _
    have hmono : a / spf * spf ≤ n * spf := Nat.mul_le_mul_right _ hge
    constructor
    · simp only [sourceFrame_length, frameLength, ← hb]
      omega
    · intro hj
      simp only [sourceFrame_length, frameLength, ← hb] at hj
      have hnlt : ¬ (n * spf + j < a) := by omega
      simp only [sourceFrame_data, concatSample, ← ha, if_neg hnlt]
      congr 1
      omega

/-- The splice general dispatch (taken when clip 1's length is not
frame-aligned) has the claimed frame lengths and concatenated sample
content, through all three regions: before the seam, the seam frame, and
the re-aligned clip-2 frames after it. -/
theorem audioSplice2Frame_spec (spf : Nat) (hspf : 0 < spf)
    (A B : AudioStream) (hnd : A.numSamples % spf ≠ 0)
    (n : Nat) (hn : n * spf < A.numSamples + B.numSamples) (c j : Nat) :
    (audioSplice2Frame spf A B n).length
        = min spf (A.numSamples + B.numSamples - n * spf) ∧
    (j < (audioSplice2Frame spf A B n).length →
      (audioSplice2Frame spf A B n).data c j
        = concatSample A B c (n * spf + j)) := by
  have hrlt : A.numSamples % spf < spf := Nat.mod_lt _ hspf
  have hr1 : 1 ≤ A.numSamples % spf := Nat.one_le_iff_ne_zero.mpr hnd
  have hnf1 : numFrames spf A.numSamples = A.numSamples / spf + 1 :=
    numFrames_of_mod_ne_zero hspf hnd
  have hdm : spf * (A.numSamples / spf) + A.numSamples % spf = A.numSamples :=
    Nat.div_add_mod A.numSamples spf
  simp only [audioSplice2Frame, hnf1]
  generalize hq : A.numSamples / spf = q
  rw [hq] at hdm
  rcases lt_trichotomy n q with hc | hc | hc
  · -- before the seam: plain clip-1 passthrough
    rw [if_pos (show n < q + 1 - 1 by omega)]
    have hle : (n + 1) * spf ≤ q * spf := Nat.mul_le_mul_right _ hc
    have hsucc : (n + 1) * spf = n * spf + spf := Nat.succ_mul _ _
    have hqc : q * spf = spf * q := Nat.mul_comm _ _
    constructor
    · simp only [sourceFrame_length, frameLength]
      omega
    · intro hj
      simp only [sourceFrame_length, frameLength] at hj
      simp only [sourceFrame_data, concatSample]
      rw [if_pos (show n * spf + j < A.numSamples by omega)]
  · -- the seam frame: tail of clip 1 stitched to the head of clip 2
    subst hc
    have hnc : n * spf = spf * n := Nat.mul_comm _ _
    rw [if_neg (show ¬(n < n + 1 - 1) by omega),
      if_pos (show n = n + 1 - 1 by omega)]
    constructor
    · simp only [sourceFrame_length, frameLength]
    · intro hj
      simp only [sourceFrame_length, frameLength] at hj ⊢
      simp only [sourceFrame_data]
      split_ifs with hcase
      · simp only [concatSample]
        rw [if_pos (show n * spf + j < A.numSamples by omega)]
      · simp only [concatSample]
        rw [if_neg (show ¬(n * spf + j < A.numSamples) by omega)]
        congr 1
        omega
  · -- after the seam: both pieces come from clip 2
    rw [if_neg (show ¬(n < q + 1 - 1) by omega),
      if_neg (show ¬(n = q + 1 - 1) by omega)]
    have he1 : A.numSamples - 1 = spf * q + (A.numSamples % spf - 1) := by
      omega
    have he2 : (A.numSamples - 1) % spf = A.numSamples % spf - 1 := by
      rw [he1, Nat.mul_add_mod]
      exact Nat.mod_eq_of_lt (by omega)
    have hexp : n * spf = spf * q + spf + (n - (q + 1)) * spf := by
      have h3 : n = q + 1 + (n - (q + 1)) := by omega
      calc n * spf = (q + 1 + (n - (q + 1))) * spf := by rw [← h3]
        _ = spf * q + spf + (n - (q + 1)) * spf := by ring
    have hs2 : (n - (q + 1) + 1) * spf = (n - (q + 1)) * spf + spf :=
      Nat.succ_mul _ _
    constructor
    · simp only [sourceFrame_length, frameLength]
    · intro hj
      simp only [sourceFrame_length, frameLength] at hj ⊢
      simp only [sourceFrame_data]
      split_ifs with hcase
      · simp only [concatSample]
        rw [if_neg (show ¬(n * spf + j < A.numSamples) by omega)]
        congr 1
        omega
      · simp only [concatSample]
        rw [if_neg (show ¬(n * spf + j < A.numSamples) by omega)]
        congr 1
        omega

/-- Output frame `n` of the splice, through whichever getframe dispatch
`audioSplice2Create` installed, has the last-frame-truncated length and
holds the concatenation of the two clips' samples. -/
theorem audioSpliceFrame_spec (spf : Nat) (hspf : 0 < spf)
    (A B : AudioStream) (n : Nat)
    (hn : n < numFrames spf (A.numSamples + B.numSamples)) (c j : Nat) :
    (audioSpliceFrame spf A B n).length
        = min spf (A.numSamples + B.numSamples - n * spf) ∧
    (j < (audioSpliceFrame spf A B n).length →
      (audioSpliceFrame spf A B n).data c j
        = concatSample A B c (n * spf + j)) := by
  have htot : n * spf < A.numSamples + B.numSamples :=
    mul_lt_total_of_lt_numFrames hspf hn
  by_cases hdvd : A.numSamples % spf = 0
  · have hd : audioSpliceFrame spf A B n
        = audioSplice2PassthroughFrame spf A B n := by
      simp [audioSpliceFrame, audioSplice2Create, hdvd]
    rw [hd]
    exact audioSplice2PassthroughFrame_spec spf hspf A B hdvd n htot c j
  · have hd : audioSpliceFrame spf A B n = audioSplice2Frame spf A B n := by
      simp [audioSpliceFrame, audioSplice2Create, hdvd]
    rw [hd]
    exact audioSplice2Frame_spec spf hspf A B hdvd n htot c j

/-- Every sample of AudioTrim's output frame `n` comes from the source at
offset `first + n * spf` (both getframe paths). -/
theorem audioTrimFrame_data (spf first trimlen : Nat) (hspf : 0 < spf)
    (src : AudioStream) (n c k : Nat) :
    (audioTrimFrame spf first trimlen src n).data c k
      = src.sample c (n * spf + first + k) := by
  have hmodlt : (n * spf + first) % spf < spf := Nat.mod_lt _ hspf
  have hdm : (n * spf + first) / spf * spf + (n * spf + first) % spf
      = n * spf + first := Nat.div_add_mod' _ _
  simp only [audioTrimFrame]
  split_ifs with h1 h2
  · simp only [sourceFrame]
    congr 1
    omega
  · simp only [sourceFrame]
    congr 1
    omega
  · simp only [sourceFrame]
    split_ifs with h3
    · congr 1
      omega
    · congr 1
      have hsucc : ((n * spf + first) / spf + 1) * spf
          = (n * spf + first) / spf * spf + spf := Nat.succ_mul _ _
      omega

/-- Whenever `audioTrimCreate` constructs a node, the retained range is
nonempty, starts at a nonnegative offset, and lies inside the source. -/
theorem audioTrim_node_bounds (fo lo le : Option Int) (N : Int) (f t : Int)
    (h : audioTrimCreate fo lo le N = TrimResult.node f t) :
    0 ≤ f ∧ 1 ≤ t ∧ f + t ≤ N := by
  rcases fo with _ | f0 <;> rcases lo with _ | l <;> rcases le with _ | ln <;>
    simp only [audioTrimCreate, Option.isSome_none, Option.isSome_some,
      Option.getD_none, Option.getD_some, Option.isNone_none,
      Option.isNone_some, Bool.false_eq_true, false_and, true_and,
      and_false, and_true, false_or, or_false, if_true, if_false] at h <;>
    (try split_ifs at h) <;>
    simp only [TrimResult.node.injEq, reduceCtorEq] at h <;>
    obtain ⟨rfl, rfl⟩ := h <;>
    omega

/-- With a frame already memoized in `d->f` and `keep` set, every
invocation returns that frame and leaves the state unchanged. -/
theorem blankAudioRun_keep_memo (spf total : Nat) (f : BlankFrame)
    (ns : List Nat) (st : BlankState) (hst : st.memo = some f) :
    blankAudioRun true spf total ns st = (ns.map (fun _ => some f), st) := by
  induction ns generalizing st with
  | nil => simp [blankAudioRun]
  | cons n rest ih =>
    simp only [blankAudioRun, blankAudioGetframe, hst, if_pos, List.map_cons]
    rw [ih st hst]

/-- With `keep` unset, a run starting from an empty memo allocates a fresh
zero frame per request: output `j` is the zero frame for index `ns[j]` with
allocation id `k + j`. -/
theorem blankAudioRun_fresh (spf total : Nat) (ns : List Nat) (k j : Nat)
    (hj : j < ns.length) :
    (blankAudioRun false spf total ns ⟨k, none⟩).1.getD j none
      = some (mkBlankFrame (k + j) spf total (ns.getD j 0)) := by
  induction ns generalizing k j with
  | nil => simp at hj
  | cons n rest ih =>
    cases j with
    | zero => simp [blankAudioRun, blankAudioGetframe]
    | succ j2 =>
      have harith : k + (j2 + 1) = k + 1 + j2 := by omega
      simp only [blankAudioRun, blankAudioGetframe, List.getD_cons_succ,
        List.getD]
      rw [harith]
      have hj2 : j2 < rest.length := by
        simp only [List.length_cons] at hj
        omega
      have := ih (k + 1) j2 hj2
      simpa [List.getD] using this

/-- The seed of the max-fold is a lower bound of its result. -/
theorem le_foldl_max (l : List ShuffleSource) (init : Nat) :
    init ≤ l.foldl (fun acc t => max acc t.stream.numSamples) init := by
  induction l generalizing init with
  | nil => simp [List.foldl]
  | cons s rest ih =>
    exact le_trans (Nat.le_max_left _ _) (ih (max init s.stream.numSamples))

/-- Every list entry's sample count is a lower bound of the max-fold. -/
theorem mem_le_foldl_max (l : List ShuffleSource) (init : Nat)
    (s : ShuffleSource) (hs : s ∈ l) :
    s.stream.numSamples
      ≤ l.foldl (fun acc t => max acc t.stream.numSamples) init := by
  induction l generalizing init with
  | nil => cases hs
  | cons t rest ih =>
    rcases List.mem_cons.mp hs with rfl | hs2
    · exact le_trans (Nat.le_max_right _ _)
        (le_foldl_max rest (max init s.stream.numSamples))
    · exact ih (max init t.stream.numSamples) hs2

/-- The max-fold returns either its seed or some entry's sample count. -/
theorem foldl_max_mem (l : List ShuffleSource) (init : Nat) :
    l.foldl (fun acc t => max acc t.stream.numSamples) init = init
      ∨ ∃ s ∈ l, l.foldl (fun acc t => max acc t.stream.numSamples) init
          = s.stream.numSamples := by
  induction l generalizing init with
  | nil => left; rfl
  | cons t rest ih =>
    rcases ih (max init t.stream.numSamples) with h | ⟨s, hs, h⟩
    · rcases Nat.le_total init t.stream.numSamples with hle | hle
      · right
        refine ⟨t, List.mem_cons_self t rest, ?_⟩
        rw [List.foldl_cons, h]
        exact Nat.max_eq_right hle
      · left
        rw [List.foldl_cons, h]
        exact Nat.max_eq_left hle
    · right
      exact ⟨s, List.mem_cons_of_mem t hs, h⟩

/-! ## Claim theorems -/

/-- C1 counterexample: the TestAudio pattern is `i % 0xFFFF`, i.e. modulo
65535; at absolute sample index 65535 (frame 21, offset 2535 with 3000
samples per frame) the written value is 0, not `65535 % 65536 = 65535` as
the claim's `i mod 65536` states. -/
theorem testAudio_mod65536_counterexample :
    2535 < (testAudioFrame 3000 70000 21).length ∧
    (testAudioFrame 3000 70000 21).data 0 2535
      ≠ ((21 * 3000 + 2535) % 65536 : Nat) := by
  constructor
  · decide
  · decide

/-- C1 (amended): for 16-bit integer format, the TestAudio sample written at
position `i` of output frame `n` - absolute index `n * spf + i` - equals
`(n * spf + i) mod 65535` (the source computes `% 0xFFFF`), and the written
data is identical across all channels of the frame. -/
theorem testAudio_sample_mod65535 (spf total n c c2 i : Nat)
    (_hi : i < (testAudioFrame spf total n).length) :
    (testAudioFrame spf total n).data c i = ((n * spf + i) % 65535 : Nat) ∧
    (testAudioFrame spf total n).data c i
      = (testAudioFrame spf total n).data c2 i :=
  ⟨rfl, rfl⟩

/-- C1 witness: the amended statement at frame 21, offset 2535, channels 0
and 1. -/
theorem testAudio_sample_mod65535_witness :
    (testAudioFrame 3000 70000 21).data 0 2535
      = ((21 * 3000 + 2535) % 65535 : Nat) ∧
    (testAudioFrame 3000 70000 21).data 0 2535
      = (testAudioFrame 3000 70000 21).data 1 2535 :=
  testAudio_sample_mod65535 3000 70000 21 0 1 2535 (by decide)

/-- C2 (code bug): constructed with a reference stream `src` (sample rate
48000) and no explicit `samplerate`, AssumeSampleRate succeeds but leaves
the output sample rate at the *input clip's* 44100: the constructor reads
`getAudioInfo(d->node)->sampleRate` instead of `src`'s, whose fetched info
is never used. -/
theorem assumeSampleRate_ignores_src :
    assumeSampleRateCreate ⟨44100, 1000, 7⟩ none (some ⟨48000, 500, 7⟩)
      = Except.ok ⟨44100, 1000, 7⟩ ∧ (44100 : Int) ≠ 48000 := by
  constructor
  · rfl
  · decide

/-- C8: AudioTrim construction fails exactly when both `last` and `length`
are given; or `last` is given with `last < first`; or `length` is given with
`length < 1`; or `first` is negative; or the range reaches beyond the source
end (`last ≥ N`, `first + length > N`, or `first ≥ N`); in every other case
construction succeeds (as a node or as the nop passthrough). -/
theorem audioTrimCreate_error_iff (fo lo le : Option Int) (N : Int) :
    (audioTrimCreate fo lo le N).isErr = true ↔
      ((lo.isSome ∧ le.isSome) ∨ (lo.isSome ∧ lo.getD 0 < fo.getD 0)
        ∨ (le.isSome ∧ le.getD 0 < 1) ∨ fo.getD 0 < 0
        ∨ (lo.isSome ∧ lo.getD 0 ≥ N)
        ∨ (le.isSome ∧ fo.getD 0 + le.getD 0 > N)
        ∨ fo.getD 0 ≥ N) := by
  rcases fo with _ | f <;> rcases lo with _ | l <;> rcases le with _ | ln <;>
    simp only [audioTrimCreate, Option.isSome_none, Option.isSome_some,
      Option.getD_none, Option.getD_some, Option.isNone_none,
      Option.isNone_some, Bool.false_eq_true, false_and, true_and,
      and_false, and_true, false_or, or_false, if_true, if_false] <;>
    (try split_ifs) <;>
    (try simp [TrimResult.isErr]) <;>
    omega

/-- C3: sample `k` of the trimmed stream equals sample `first + k` of the
source, for every `k` in the trimmed range and on every channel; every
range `audioTrimCreate` accepts as a node satisfies the validity bounds
this relies on; and in the concrete scenario (`samples_per_frame = 3000`,
`total = 7000`, `Trim(first := 2999, length := 2)`) construction yields the
node `(2999, 2)`, frame 0 requests source frames 0 and 1, and the 2-sample
output frame holds source samples 2999 and 3000. -/
theorem audioTrim_sample_correct (spf : Nat) (hspf : 0 < spf)
    (src : AudioStream) (first trimlen c k : Nat) (_hk : k < trimlen) :
    trimSample spf first trimlen src c k = src.sample c (first + k) ∧
    (∀ fo lo le N f t, audioTrimCreate fo lo le N = TrimResult.node f t →
      0 ≤ f ∧ 1 ≤ t ∧ f + t ≤ N) ∧
    audioTrimCreate (some 2999) none (some 2) 7000 = TrimResult.node 2999 2 ∧
    audioTrimRequests 3000 2999 2 0 = [0, 1] ∧
    (audioTrimFrame 3000 2999 2 src 0).length = 2 ∧
    (audioTrimFrame 3000 2999 2 src 0).data c 0 = src.sample c 2999 ∧
    (audioTrimFrame 3000 2999 2 src 0).data c 1 = src.sample c 3000 := by
  refine ⟨?_, fun fo lo le N f t h => audioTrim_node_bounds fo lo le N f t h,
    by decide, by decide, ?_, ?_, ?_⟩
  · rw [trimSample, audioTrimFrame_data spf first trimlen hspf src _ c _]
    congr 1
    have hdm : k / spf * spf + k % spf = k := Nat.div_add_mod' _ _
    omega
  · rfl
  · rw [audioTrimFrame_data 3000 2999 2 (by norm_num) src 0 c 0]
  · rw [audioTrimFrame_data 3000 2999 2 (by norm_num) src 0 c 1]

/-- C4: `Splice(A, B)` has total sample count `a + b`, frame count
`ceil((a + b) / spf)`, and on every channel reproduces `A`'s samples at
indices below `a` and `B`'s samples at `a + j` - whichever of the two
getframe dispatches `audioSplice2Create` installed (`a` divisible by `spf`
or not). -/
theorem audioSplice_concat_correct (spf : Nat) (hspf : 0 < spf)
    (A B : AudioStream) (c k : Nat) :
    (audioSplice2Create spf A B).numSamples = A.numSamples + B.numSamples ∧
    (audioSplice2Create spf A B).numFramesOut
        = (A.numSamples + B.numSamples + spf - 1) / spf ∧
    (k < A.numSamples → spliceSample spf A B c k = A.sample c k) ∧
    (k < B.numSamples →
      spliceSample spf A B c (A.numSamples + k) = B.sample c k) := by
  have key : ∀ i, i < A.numSamples + B.numSamples →
      spliceSample spf A B c i = concatSample A B c i := by
    intro i hi
    have hdm : i / spf * spf + i % spf = i := Nat.div_add_mod' _ _
    have hmod : i % spf < spf := Nat.mod_lt _ hspf
    have hmle : i / spf * spf ≤ i := Nat.div_mul_le_self _ _
    have hstep : (i / spf + 1) * spf = i / spf * spf + spf := Nat.succ_mul _ _
    have hnf : i / spf < numFrames spf (A.numSamples + B.numSamples) := by
      have h2 : (i / spf + 1) * spf
          ≤ A.numSamples + B.numSamples + spf - 1 := by omega
      exact (Nat.le_div_iff_mul_le hspf).mpr h2
    obtain ⟨hlen, hdata⟩ :=
      audioSpliceFrame_spec spf hspf A B (i / spf) hnf c (i % spf)
    have hj : i % spf < (audioSpliceFrame spf A B (i / spf)).length := by
      rw [hlen]
      omega
    rw [spliceSample, hdata hj]
    congr 1
  refine ⟨rfl, rfl, ?_, ?_⟩
  · intro hk
    rw [key k (by omega), concatSample, if_pos hk]
  · intro hk
    rw [key (A.numSamples + k) (by omega), concatSample,
      if_neg (show ¬(A.numSamples + k < A.numSamples) by omega)]
    congr 1
    omega

/-- C4 witness: the splice sample property at two concrete 4- and 5-sample
streams with `spf = 3` (the general dispatch, since `4 % 3 ≠ 0`). -/
theorem audioSplice_concat_correct_witness :
    (audioSplice2Create 3 exStreamA exStreamB).numSamples
        = exStreamA.numSamples + exStreamB.numSamples ∧
    (audioSplice2Create 3 exStreamA exStreamB).numFramesOut
        = (exStreamA.numSamples + exStreamB.numSamples + 3 - 1) / 3 ∧
    (2 < exStreamA.numSamples →
      spliceSample 3 exStreamA exStreamB 0 2 = exStreamA.sample 0 2) ∧
    (2 < exStreamB.numSamples →
      spliceSample 3 exStreamA exStreamB 0 (exStreamA.numSamples + 2)
        = exStreamB.sample 0 2) :=
  audioSplice_concat_correct 3 (by decide) exStreamA exStreamB 0 2

/-- C6: with `keep = true` the first frame ever generated (for the first
requested index `n0`) is stored in the node state, every request in the run
returns that same frame, and the memo is never replaced; with
`keep = false` every request `j` yields a distinct allocation (id `j`),
all-zero, of length `min spf (total - n * spf)`. -/
theorem blankAudio_keep_memoizes (spf total n0 : Nat) (ns : List Nat)
    (j : Nat) (hj : j < ns.length) :
    (blankAudioRun true spf total (n0 :: ns) blankInit).1
        = (n0 :: ns).map (fun _ => some (mkBlankFrame 0 spf total n0)) ∧
    (blankAudioRun true spf total (n0 :: ns) blankInit).2.memo
        = some (mkBlankFrame 0 spf total n0) ∧
    (blankAudioRun false spf total ns blankInit).1.getD j none
        = some (mkBlankFrame j spf total (ns.getD j 0)) ∧
    (mkBlankFrame j spf total (ns.getD j 0)).length
        = min spf (total - ns.getD j 0 * spf) ∧
    (∀ c i, (mkBlankFrame j spf total (ns.getD j 0)).value c i = 0) := by
  have hrest := blankAudioRun_keep_memo spf total (mkBlankFrame 0 spf total n0)
    ns ⟨1, some (mkBlankFrame 0 spf total n0)⟩ rfl
  have hrun : blankAudioRun true spf total (n0 :: ns) blankInit
      = (some (mkBlankFrame 0 spf total n0)
          :: ns.map (fun _ => some (mkBlankFrame 0 spf total n0)),
        ⟨1, some (mkBlankFrame 0 spf total n0)⟩) := by
    simp only [blankAudioRun, blankAudioGetframe, blankInit, if_pos]
    rw [hrest]
  have hfresh := blankAudioRun_fresh spf total ns 0 j hj
  refine ⟨by rw [hrun, List.map_cons], by rw [hrun], ?_, rfl, fun c i => rfl⟩
  show (blankAudioRun false spf total ns ⟨0, none⟩).1.getD j none = _
  rw [hfresh]
  simp

/-- C6 witness: a keep-run over requests `[5, 0, 7]` and a fresh-run over
`[0, 7]` at `spf = 3000`, `total = 7000`, output position `j = 1`. -/
theorem blankAudio_keep_memoizes_witness :
    (blankAudioRun true 3000 7000 (5 :: [0, 7]) blankInit).1
        = (5 :: [0, 7]).map (fun _ => some (mkBlankFrame 0 3000 7000 5)) ∧
    (blankAudioRun true 3000 7000 (5 :: [0, 7]) blankInit).2.memo
        = some (mkBlankFrame 0 3000 7000 5) ∧
    (blankAudioRun false 3000 7000 [0, 7] blankInit).1.getD 1 none
        = some (mkBlankFrame 1 3000 7000 ([0, 7].getD 1 0)) ∧
    (mkBlankFrame 1 3000 7000 ([0, 7].getD 1 0)).length
        = min 3000 (7000 - [0, 7].getD 1 0 * 3000) ∧
    (∀ c i, (mkBlankFrame 1 3000 7000 ([0, 7].getD 1 0)).value c i = 0) :=
  blankAudio_keep_memoizes 3000 7000 5 [0, 7] 1 (by decide)

/-- C7: the ShuffleChannels output sample count is the maximum of the
sources' counts (the create's max-fold is bounded by and attained among the
sources); and in output frame `n`, destination channel `c` (selection `s`)
is entirely zero when `n` is at or beyond that source's frame count, and
otherwise copies exactly `min(output_length, source_frame_length)` samples
from physical source channel `s.idx` and zero-fills the remainder. -/
theorem shuffleChannels_spec (spf : Nat) (srcs : List ShuffleSource)
    (hne : srcs ≠ []) (n c i : Nat) (s : ShuffleSource)
    (hsome : srcs[c]? = some s)
    (_hi : i < (shuffleChannelsFrame spf srcs n).length) :
    (∀ t ∈ srcs, t.stream.numSamples ≤ shuffleNumSamples srcs) ∧
    (∃ t ∈ srcs, shuffleNumSamples srcs = t.stream.numSamples) ∧
    (numFrames spf s.stream.numSamples ≤ n →
      (shuffleChannelsFrame spf srcs n).data c i = 0) ∧
    (n < numFrames spf s.stream.numSamples →
      (shuffleChannelsFrame spf srcs n).data c i =
        if i < min (shuffleChannelsFrame spf srcs n).length
            (sourceFrame spf s.stream n).length
        then s.stream.sample s.idx (n * spf + i) else 0) := by
  rcases srcs with _ | ⟨s0, rest⟩
  · exact absurd rfl hne
  refine ⟨?_, ?_, ?_, ?_⟩
  · intro t ht
    rw [shuffleNumSamples]
    exact mem_le_foldl_max _ _ t ht
  · rw [shuffleNumSamples]
    rcases foldl_max_mem (s0 :: rest) s0.stream.numSamples with h | ⟨t, ht, h⟩
    · exact ⟨s0, List.mem_cons_self _ _, h⟩
    · exact ⟨t, ht, h⟩
  · intro hge
    simp only [shuffleChannelsFrame, hsome]
    rw [if_neg (Nat.not_lt.mpr hge)]
    simp
  · intro hlt
    simp only [shuffleChannelsFrame, hsome, sourceFrame_data,
      sourceFrame_length]
    rw [if_pos hlt]

/-- A concrete two-selection source list for the C7 witness. -/
def exShuffleSrcs : List ShuffleSource := [⟨exStreamA, 0⟩, ⟨exStreamB, 0⟩]

/-- C7 witness: the shuffle property at the two concrete streams, frame 0,
destination channel 1, sample 0. -/
theorem shuffleChannels_spec_witness :
    (∀ t ∈ exShuffleSrcs,
      t.stream.numSamples ≤ shuffleNumSamples exShuffleSrcs) ∧
    (∃ t ∈ exShuffleSrcs,
      shuffleNumSamples exShuffleSrcs = t.stream.numSamples) ∧
    (numFrames 3 (⟨exStreamB, 0⟩ : ShuffleSource).stream.numSamples ≤ 0 →
      (shuffleChannelsFrame 3 exShuffleSrcs 0).data 1 0 = 0) ∧
    (0 < numFrames 3 (⟨exStreamB, 0⟩ : ShuffleSource).stream.numSamples →
      (shuffleChannelsFrame 3 exShuffleSrcs 0).data 1 0 =
        if 0 < min (shuffleChannelsFrame 3 exShuffleSrcs 0).length
            (sourceFrame 3 (⟨exStreamB, 0⟩ : ShuffleSource).stream 0).length
        then (⟨exStreamB, 0⟩ : ShuffleSource).stream.sample
          (⟨exStreamB, 0⟩ : ShuffleSource).idx (0 * 3 + 0) else 0) :=
  shuffleChannels_spec 3 exShuffleSrcs (by simp [exShuffleSrcs]) 0 1 0
    ⟨exStreamB, 0⟩ rfl (by decide)

/-- C9: every one of SplitChannels' outputs is given the format queried for
the single-channel `1 << vsacFrontLeft` layout - whatever source channel
index `k` that output copies (the per-frame copy of channel `k` is also
shown) - so no channel-identity bit other than FrontLeft survives in any
output's layout. -/
theorem splitChannels_frontLeft (ai : AudioInfoFull) (spf : Nat)
    (src : AudioStream) (k n i : Nat) (hk : k < ai.format.numChannels) :
    ((splitChannelsCreate ai).getD k ai).format
        = ⟨ai.format.sampleType, ai.format.bitsPerSample, 1 <<< vsacFrontLeft,
            1⟩ ∧
    (∀ bpos, bpos ≠ vsacFrontLeft →
      Nat.testBit (((splitChannelsCreate ai).getD k ai).format.channelLayout)
        bpos = false) ∧
    (splitChannelsGetFrame spf src k n).data 0 i
        = src.sample k (n * spf + i) := by
  have hquery : queryAudioFormat ai.format.sampleType ai.format.bitsPerSample
      (1 <<< vsacFrontLeft)
      = some ⟨ai.format.sampleType, ai.format.bitsPerSample,
          1 <<< vsacFrontLeft, 1⟩ := by
    rfl
  have hget : ((splitChannelsCreate ai).getD k ai).format
      = ⟨ai.format.sampleType, ai.format.bitsPerSample, 1 <<< vsacFrontLeft,
          1⟩ := by
    unfold splitChannelsCreate
    rw [List.getD_eq_getElem?_getD, List.getElem?_map]
    simp only [List.getElem?_range, hk, if_pos]
    rw [hquery]
    rfl
  refine ⟨hget, ?_, rfl⟩
  intro bpos hbpos
  rw [hget]
  show Nat.testBit (1 <<< vsacFrontLeft) bpos = false
  rcases bpos with _ | b2
  · exact absurd rfl hbpos
  · rw [show (1 <<< vsacFrontLeft : Nat) = 1 from rfl, Nat.testBit_succ]
    simp

/-- C9 witness: a stereo 16-bit integer source; both outputs (here `k = 1`)
get the FrontLeft-only format while copying channel 1's data. -/
theorem splitChannels_frontLeft_witness :
    ((splitChannelsCreate ⟨⟨SampleType.integer, 16, 3, 2⟩, 44100, 7000⟩).getD
        1 ⟨⟨SampleType.integer, 16, 3, 2⟩, 44100, 7000⟩).format
      = ⟨SampleType.integer, 16, 1 <<< vsacFrontLeft, 1⟩ ∧
    (∀ bpos, bpos ≠ vsacFrontLeft →
      Nat.testBit
        (((splitChannelsCreate ⟨⟨SampleType.integer, 16, 3, 2⟩, 44100,
            7000⟩).getD 1 ⟨⟨SampleType.integer, 16, 3, 2⟩, 44100,
            7000⟩).format.channelLayout) bpos = false) ∧
    (splitChannelsGetFrame 3000 exStream7000 1 0).data 0 5
        = exStream7000.sample 1 (0 * 3000 + 5) :=
  splitChannels_frontLeft ⟨⟨SampleType.integer, 16, 3, 2⟩, 44100, 7000⟩
    3000 exStream7000 1 0 5 (by decide)

/-- C10: when ShuffleChannels is constructed with fewer source nodes than
channel selections, validation passes and every selection `i ≥ numSrcNodes`
is bound to the node at index `min (numSrcNodes - 1) i`, i.e. the last
listed node. -/
theorem shuffleChannels_lastNode_binding (numSrcNodes numSrcChannels co i :
      Nat)
    (_h1 : 1 ≤ numSrcNodes) (h2 : numSrcNodes < numSrcChannels)
    (hco : popcount64 co = numSrcChannels)
    (hi1 : numSrcNodes ≤ i) (hi2 : i < numSrcChannels) :
    ∃ l, shuffleChannelsCreateBindings numSrcNodes numSrcChannels co
        = Except.ok l ∧
      l.getD i 0 = min (numSrcNodes - 1) i ∧
      l.getD i 0 = numSrcNodes - 1 := by
  have hok : shuffleChannelsCreateBindings numSrcNodes numSrcChannels co
      = Except.ok ((List.range numSrcChannels).map
          (fun i2 => min (numSrcNodes - 1) i2)) := by
    unfold shuffleChannelsCreateBindings
    rw [if_neg (show ¬(numSrcNodes > numSrcChannels) by omega),
      if_neg (show ¬(popcount64 co ≠ numSrcChannels) by simp [hco])]
  have hgd : ((List.range numSrcChannels).map
      (fun i2 => min (numSrcNodes - 1) i2)).getD i 0
      = min (numSrcNodes - 1) i := by
    rw [List.getD_eq_getElem?_getD, List.getElem?_map]
    simp only [List.getElem?_range, hi2, if_pos]
    rfl
  refine ⟨_, hok, hgd, ?_⟩
  rw [hgd]
  omega

/-- C10 witness: 2 listed nodes, 4 selections (`channels_out = 15`, whose
population count is 4); selection 3 is bound to node 1, the last node. -/
theorem shuffleChannels_lastNode_binding_witness :
    ∃ l, shuffleChannelsCreateBindings 2 4 15 = Except.ok l ∧
      l.getD 3 0 = min (2 - 1) 3 ∧ l.getD 3 0 = 2 - 1 :=
  shuffleChannels_lastNode_binding 2 4 15 3 (by decide) (by decide)
    (by decide) (by decide) (by decide)

/-- C3 witness: the trimmed-stream sample property at a concrete stream,
`spf = 3000`, `first = 2999`, `trimlen = 2`, channel 0, `k = 1`. -/
theorem audioTrim_sample_correct_witness :
    trimSample 3000 2999 2 exStream7000 0 1 = exStream7000.sample 0 (2999 + 1) :=
  (audioTrim_sample_correct 3000 (by decide) exStream7000 2999 2 0 1
    (by decide)).1

end VSAudio
